import Mathlib

/-!
Verification of the paper-fetcher repository's extraction and classification
pipeline.  Two implementation variants are embedded:

* namespace `Pkg` models `src/paper_fetcher/fetch_papers.py`;
* namespace `Root` models `src/fetch_papers.py`.

XML element trees are modelled by the nested inductive `Xml`; the ElementTree
lookups used by the code (`find`, `findall`, `findtext`, with both
direct-child paths and descendant `.//` paths) are modelled on top of it,
with `findtext` reading missing text as `""` exactly as ElementTree does.
Python string operations (`lower`, `strip`, substring membership `in`) and
the two e-mail regular expressions are modelled on character lists.  For the
two concrete patterns used by the code no regex backtracking can change the
outcome (`@` belongs to neither character class, and nothing follows the
final greedy piece), so the matchers below compute the leftmost match with
greedy runs directly.  Python's `set` of affiliations is modelled as an
insertion-ordered duplicate-free list; no theorem below depends on the
iteration order of that set beyond emptiness, membership and singleton
facts.  HTTP fetching is abstracted by an environment function, and the
fetch functions additionally return the list of requests they issue.
-/

/-- Model of an ElementTree element: a tag, optional text, child elements. -/
inductive Xml where
  | elem (tag : String) (text : Option String) (children : List Xml)

def Xml.tag : Xml → String
  | .elem t _ _ => t

def Xml.text : Xml → Option String
  | .elem _ t _ => t

def Xml.children : Xml → List Xml
  | .elem _ _ cs => cs

mutual

/-- All proper descendants of an element, in document (pre-)order. -/
def Xml.descendants : Xml → List Xml
  | .elem _ _ cs => Xml.descList cs

def Xml.descList : List Xml → List Xml
  | [] => []
  | x :: xs => x :: Xml.descendants x ++ Xml.descList xs

end

/-- Model of `elem.find("Tag")`: first direct child with the given tag. -/
def findChild (t : String) (x : Xml) : Option Xml :=
  x.children.find? (fun e => e.tag = t)

/-- Model of `elem.find(".//Tag")`: first descendant with the tag. -/
def findDesc (t : String) (x : Xml) : Option Xml :=
  x.descendants.find? (fun e => e.tag = t)

/-- Model of `elem.findall("Tag")`: direct children with the tag, in order. -/
def findAllChildren (t : String) (x : Xml) : List Xml :=
  x.children.filter (fun e => e.tag = t)

/-- Model of `elem.findall(".//Tag")`: descendants with the tag, in order. -/
def findAllDesc (t : String) (x : Xml) : List Xml :=
  x.descendants.filter (fun e => e.tag = t)

/-- Model of `elem.findtext("Tag", default)`: the default when no such child
exists, else the child's text, with missing text read as `""`. -/
def findtextChild (t : String) (dflt : String) (x : Xml) : String :=
  match findChild t x with
  | none => dflt
  | some e => e.text.getD ""

/-- Model of `elem.findtext(".//Tag", default)`. -/
def findtextDesc (t : String) (dflt : String) (x : Xml) : String :=
  match findDesc t x with
  | none => dflt
  | some e => e.text.getD ""

/-- Model of Python `str.lower()` (ASCII letters, as in the inputs at hand). -/
def strLower (s : String) : String := String.mk (s.data.map Char.toLower)

/-- Characters removed by Python `str.strip()` with no argument. -/
def isPyWhitespace (c : Char) : Bool :=
  c = ' ' || c = '\t' || c = '\n' || c = '\r' || c = '\x0b' || c = '\x0c'

/-- Model of Python `str.strip()`. -/
def strTrim (s : String) : String :=
  String.mk (((s.data.dropWhile isPyWhitespace).reverse.dropWhile isPyWhitespace).reverse)

/-- Boolean test for a contiguous sublist (`subListOf needle hay`). -/
def subListOf (needle : List Char) : List Char → Bool
  | [] => needle.isEmpty
  | c :: cs => needle.isPrefixOf (c :: cs) || subListOf needle cs

/-- Model of Python `needle in hay` on strings. -/
def containsStr (hay needle : String) : Bool := subListOf needle.data hay.data

/-- Character class `[a-zA-Z0-9._%+-]` of the package variant's e-mail regex. -/
def localChar (c : Char) : Bool :=
  c.isAlphanum || c = '.' || c = '_' || c = '%' || c = '+' || c = '-'

/-- Character class `[a-zA-Z0-9.-]`. -/
def domChar (c : Char) : Bool := c.isAlphanum || c = '.' || c = '-'

/-- Character class `[a-zA-Z]`. -/
def letterChar (c : Char) : Bool := c.isAlpha

/-- Length of the maximal run of characters satisfying `p` at the front. -/
def runLen (p : Char → Bool) : List Char → Nat
  | [] => 0
  | c :: cs => if p c then runLen p cs + 1 else 0

/-- Greedy matching of `\.[a-zA-Z]{2,}` after a domain run: try to end the
`[a-zA-Z0-9.-]+` piece after `k` characters, largest `k` first, as the
backtracking regex engine does.  Returns the total matched length. -/
def tryDomainSplit : Nat → List Char → Option Nat
  | 0, _ => none
  | k + 1, cs =>
    match cs.drop (k + 1) with
    | '.' :: tail =>
      let l := runLen letterChar tail
      if 2 ≤ l then some (k + 1 + 1 + l) else tryDomainSplit k cs
    | _ => tryDomainSplit k cs

/-- Length of the match of `[a-zA-Z0-9._%+-]+@[a-zA-Z0-9.-]+\.[a-zA-Z]{2,}`
starting exactly at the head of `cs`, if any. -/
def matchEmailAt (cs : List Char) : Option Nat :=
  let a := runLen localChar cs
  if a = 0 then none
  else
    match cs.drop a with
    | '@' :: rest =>
      match tryDomainSplit (runLen domChar rest) rest with
      | some dlen => some (a + 1 + dlen)
      | none => none
    | _ => none

/-- Scan for all non-overlapping leftmost matches, resuming after each match;
the fuel is an upper bound on the number of scanning steps. -/
def findallEmailAux : Nat → List Char → List (List Char)
  | 0, _ => []
  | _ + 1, [] => []
  | fuel + 1, c :: cs =>
    match matchEmailAt (c :: cs) with
    | some n => (c :: cs).take n :: findallEmailAux fuel (cs.drop (n - 1))
    | none => findallEmailAux fuel cs

/-- Model of `re.findall(r"[a-zA-Z0-9._%+-]+@[a-zA-Z0-9.-]+\.[a-zA-Z]{2,}", s)`
used by the package variant (line 133 of `src/paper_fetcher/fetch_papers.py`). -/
def emailFindall (s : String) : List String :=
  (findallEmailAux s.length s.data).map String.mk

/-- Character class `[\w\.-]` of the root variant's e-mail regex (ASCII `\w`). -/
def wordChar (c : Char) : Bool := c.isAlphanum || c = '_' || c = '.' || c = '-'

/-- Continuation after the local part of `[\w\.-]+@[\w\.-]+`: require `@` and
then a nonempty greedy word run. -/
def afterAt (a : Nat) : List Char → Option Nat
  | c :: rest =>
    if c = '@' then
      let b := runLen wordChar rest
      if b = 0 then none else some (a + 1 + b)
    else none
  | [] => none

/-- Length of the match of `[\w\.-]+@[\w\.-]+` starting at the head of `cs`. -/
def matchSimpleEmailAt (cs : List Char) : Option Nat :=
  let a := runLen wordChar cs
  if a = 0 then none else afterAt a (cs.drop a)

def searchEmailAux : List Char → Option (List Char)
  | [] => none
  | c :: cs =>
    match matchSimpleEmailAt (c :: cs) with
    | some n => some ((c :: cs).take n)
    | none => searchEmailAux cs

/-- Model of `re.search(r"[\w\.-]+@[\w\.-]+", s)` used by the root variant
(line 192 of `src/fetch_papers.py`): the leftmost match, if any. -/
def emailSearch (s : String) : Option String := (searchEmailAux s.data).map String.mk

/-- One extracted article record (spec section 3).  `title` is an `Option`
because the package-variant extractor stores `title_elem.text`, which is
Python `None` when the element carries no text. -/
structure Paper where
  pubmedID : String
  title : Option String
  publicationDate : String
  nonAcademicAuthors : List String
  companyAffiliations : List String
  correspondingEmail : String

/-- Python `xs or ["N/A"]` on a list value. -/
def orNA : List String → List String
  | [] => ["N/A"]
  | x :: xs => x :: xs

/-- Model of `set.add` as insertion into an insertion-ordered
duplicate-free list. -/
def insertDedup (xs : List String) (a : String) : List String :=
  if a ∈ xs then xs else xs ++ [a]

/-- Text of one `AffiliationInfo` element: `findtext("Affiliation", "").strip()`. -/
def affText (ai : Xml) : String := strTrim (findtextChild "Affiliation" "" ai)

namespace Pkg

/-- Keyword list of `is_non_academic`, `src/paper_fetcher/fetch_papers.py`
lines 40-43. -/
def academic_keywords : List String :=
  ["university", "institute", "college", "school", "department", "academy",
   "faculty", "centre for", "research center", "laboratory"]

/-- Lines 38-44: an affiliation is non-academic iff its lowercased text
contains none of the academic keywords. -/
def is_non_academic (affiliation : String) : Bool :=
  !(academic_keywords.any (fun keyword => containsStr (strLower affiliation) keyword))

/-- Lines 87-101 (`extract_publication_date`). -/
def extract_publication_date (article : Xml) : String :=
  match findDesc "PubDate" article with
  | none => "N/A"
  | some pub_date_elem =>
    let year := findtextChild "Year" "N/A" pub_date_elem
    let month := findtextChild "Month" "N/A" pub_date_elem
    let day := findtextChild "Day" "N/A" pub_date_elem
    if month ≠ "N/A" ∧ day ≠ "N/A" then year ++ " " ++ month ++ " " ++ day
    else year

/-- Lines 104-113 (`extract_author_name`); `none` models Python `None`. -/
def extract_author_name (author : Xml) : Option String :=
  let last_name := strTrim (findtextChild "LastName" "" author)
  let fore_name := strTrim (findtextChild "ForeName" "" author)
  if last_name ≠ "" ∧ fore_name ≠ "" then some (fore_name ++ " " ++ last_name)
  else if last_name ≠ "" then some last_name
  else none

/-- State threaded through the loops of `process_author_data`: collected
author names, the affiliation set, and the collected e-mail list. -/
abbrev AuthState := List String × List String × List String

/-- Body of the inner loop over `author.findall(".//AffiliationInfo")`
(lines 129-139): skip empty affiliations, collect all e-mail matches, and on
a non-academic verdict append the author name and add the affiliation. -/
def affStep (name : String) (st : AuthState) (ai : Xml) : AuthState :=
  let affiliation := affText ai
  if affiliation = "" then st
  else
    let emails := st.2.2 ++ emailFindall affiliation
    if is_non_academic affiliation then
      (st.1 ++ [name], insertDedup st.2.1 affiliation, emails)
    else
      (st.1, st.2.1, emails)

/-- Body of the outer loop over `author_list.findall("Author")` (lines
124-139): authors without a derivable name are skipped entirely. -/
def authorStep (st : AuthState) (author : Xml) : AuthState :=
  match extract_author_name author with
  | none => st
  | some name => (findAllDesc "AffiliationInfo" author).foldl (affStep name) st

/-- Lines 116-152 (`process_author_data`). -/
def process_author_data (article_data : Xml) : List String × List String × String :=
  match findDesc "AuthorList" article_data with
  | none => (["N/A"], ["N/A"], "N/A")
  | some author_list =>
    let st := (findAllChildren "Author" author_list).foldl authorStep ([], [], [])
    let corresponding_email :=
      if st.2.2 = [] then "N/A" else String.intercalate "; " st.2.2
    (orNA st.1, orNA st.2.1, corresponding_email)

/-- Lines 72-84 (`parse_paper_data`).  The title is
`article.find(".//ArticleTitle").text` when the element exists; that text can
be Python `None`, modelled as `none`. -/
def parse_paper_data (article : Xml) : Paper :=
  let pad := process_author_data article
  { pubmedID := findtextDesc "PMID" "N/A" article
    title :=
      match findDesc "ArticleTitle" article with
      | none => some "Unknown Title"
      | some title_elem => title_elem.text
    publicationDate := extract_publication_date article
    nonAcademicAuthors := pad.1
    companyAffiliations := pad.2.1
    correspondingEmail := pad.2.2 }

/-- Lines 47-69 (`get_paper_details`), with HTTP abstracted into `respond`
and the issued fetch requests (their joined `id` parameters) returned in the
second component.  An empty identifier list returns before any request. -/
def get_paper_details (respond : String → Option Xml) (pmids : List String) :
    List Paper × List String :=
  if pmids.isEmpty then ([], [])
  else
    let idParam := String.intercalate "," pmids
    match respond idParam with
    | none => ([], [idParam])
    | some root => ((findAllDesc "PubmedArticle" root).map parse_paper_data, [idParam])

/-- Qualifying affiliation texts among a list of `AffiliationInfo` elements:
nonempty after stripping and classified non-academic; exactly those whose
processing appends the author name. -/
def qualAffs (ais : List Xml) : List String :=
  ais.flatMap (fun ai =>
    if affText ai ≠ "" ∧ is_non_academic (affText ai) then [affText ai] else [])

/-- E-mail matches contributed by a list of `AffiliationInfo` elements. -/
def affEmails (ais : List Xml) : List String :=
  ais.flatMap (fun ai => if affText ai ≠ "" then emailFindall (affText ai) else [])

/-- Expected author-name sequence: one copy of the display name per
qualifying affiliation, authors in document order. -/
def authorNames (authors : List Xml) : List String :=
  authors.flatMap (fun a =>
    match extract_author_name a with
    | none => []
    | some name =>
        List.replicate (qualAffs (findAllDesc "AffiliationInfo" a)).length name)

/-- All qualifying affiliation texts of named authors, in encounter order. -/
def allQualAffs (authors : List Xml) : List String :=
  authors.flatMap (fun a =>
    match extract_author_name a with
    | none => []
    | some _ => qualAffs (findAllDesc "AffiliationInfo" a))

/-- All e-mail matches found across named authors' affiliations, in
encounter order. -/
def allEmails (authors : List Xml) : List String :=
  authors.flatMap (fun a =>
    match extract_author_name a with
    | none => []
    | some _ => affEmails (findAllDesc "AffiliationInfo" a))

end Pkg

namespace Root

/-- Corporate keyword list, `src/fetch_papers.py` lines 132-138. -/
def corporate_keywords : List String :=
  ["pharma", "biotech", "inc", "ltd", "corporation", "corp",
   "gmbh", "llc", "co.", "company", "industries", "therapeutics",
   "labs", "laboratories", "research centre", "research center",
   "technologies", "bioscience", "genomics", "diagnostics",
   "biopharm", "holdings", "division"]

/-- Academic keyword list, lines 141-144. -/
def academic_keywords : List String :=
  ["university", "college", "school of", "faculty of", "department of", "academy"]

/-- Lines 126-155: non-academic iff a corporate keyword is present, or
`"research"` is present with no academic keyword. -/
def is_non_academic (affiliation : String) : Bool :=
  let affiliation_lower := strLower affiliation
  let has_corporate := corporate_keywords.any (fun k => containsStr affiliation_lower k)
  let has_academic := academic_keywords.any (fun k => containsStr affiliation_lower k)
  let is_research_center := containsStr affiliation_lower "research" && !has_academic
  has_corporate || is_research_center

/-- Lines 91-100 (`create_empty_paper_dict`): note the empty list fields. -/
def create_empty_paper_dict : Paper :=
  { pubmedID := "N/A", title := some "N/A", publicationDate := "N/A",
    nonAcademicAuthors := [], companyAffiliations := [], correspondingEmail := "N/A" }

/-- Line 106: `article_data.find(".//PubDate") or article_data.find(".//PublicationDate")`.
A found element is falsy in Python when it has no children, in which case the
`or` falls through to the second lookup. -/
def selectedPubDate (article_data : Xml) : Option Xml :=
  match findDesc "PubDate" article_data with
  | some e => if e.children.isEmpty then findDesc "PublicationDate" article_data else some e
  | none => findDesc "PublicationDate" article_data

/-- Lines 103-123 (`extract_publication_date`). -/
def extract_publication_date (article_data : Xml) : String :=
  match selectedPubDate article_data with
  | none => "N/A"
  | some pub_date_elem =>
    let year := findtextChild "Year" "N/A" pub_date_elem
    let month := findtextChild "Month" "N/A" pub_date_elem
    let day := findtextChild "Day" "N/A" pub_date_elem
    if year ≠ "N/A" then
      if month ≠ "N/A" ∧ day ≠ "N/A" then year ++ " " ++ month ++ " " ++ day
      else if month ≠ "N/A" then year ++ " " ++ month
      else year
    else "N/A"

/-- Lines 208-220 (`extract_author_name`); `""` marks a skipped author. -/
def extract_author_name (author : Xml) : String :=
  let last_name := strTrim (findtextChild "LastName" "" author)
  let fore_name := strTrim (findtextChild "ForeName" "" author)
  if last_name = "" ∧ fore_name = "" then
    let collective_name := strTrim (findtextChild "CollectiveName" "" author)
    if collective_name ≠ "" then collective_name else ""
  else if fore_name ≠ "" then last_name ++ ", " ++ fore_name
  else last_name

/-- Lines 176-187: gather the author's affiliation strings — the nonempty
`AffiliationInfo` texts, else the legacy direct `Affiliation` child when no
modern text was found. -/
def authorAffiliations (author : Xml) : List String :=
  let modern := (findAllDesc "AffiliationInfo" author).flatMap
    (fun ai => if affText ai ≠ "" then [affText ai] else [])
  let direct_affiliation := strTrim (findtextChild "Affiliation" "" author)
  if direct_affiliation ≠ "" ∧ modern = [] then modern ++ [direct_affiliation]
  else modern

/-- E-mail update for one affiliation (lines 192-194): the first `re.search`
match anywhere sets the field once; later matches are ignored. -/
def emailUpd (e : String) (affiliation : String) : String :=
  match emailSearch affiliation with
  | some email_match => if e = "N/A" then email_match else e
  | none => e

/-- State threaded through the loops: author names, affiliation set, e-mail. -/
abbrev AuthState := List String × List String × String

/-- Body of the `for affiliation in affiliations` loop (lines 190-199). -/
def affStep (name : String) (st : AuthState) (affiliation : String) : AuthState :=
  let st1 : AuthState := (st.1, st.2.1, emailUpd st.2.2 affiliation)
  if is_non_academic affiliation then
    (st1.1 ++ [name], insertDedup st1.2.1 affiliation, st1.2.2)
  else st1

/-- Body of the loop over `author_list.findall("Author")` (lines 170-199). -/
def authorStep (st : AuthState) (author : Xml) : AuthState :=
  let name := extract_author_name author
  if name = "" then st
  else (authorAffiliations author).foldl (affStep name) st

/-- Lines 158-205 (`process_author_data`). -/
def process_author_data (article_data : Xml) : List String × List String × String :=
  match findDesc "AuthorList" article_data with
  | none => (["N/A"], ["N/A"], "N/A")
  | some author_list =>
    let st := (findAllChildren "Author" author_list).foldl authorStep ([], [], "N/A")
    (orNA st.1, orNA st.2.1, st.2.2)

/-- Lines 62-88 (`parse_paper_data`). -/
def parse_paper_data (article : Xml) : Paper :=
  match findDesc "Article" article with
  | none => create_empty_paper_dict
  | some article_data =>
    let pad := process_author_data article_data
    { pubmedID := findtextDesc "PMID" "N/A" article
      title := some (findtextDesc "ArticleTitle" "N/A" article_data)
      publicationDate := extract_publication_date article_data
      nonAcademicAuthors := pad.1
      companyAffiliations := pad.2.1
      correspondingEmail := pad.2.2 }

/-- Lines 31-59 (`get_paper_details`), HTTP abstracted as in `Pkg`. -/
def get_paper_details (respond : String → Option Xml) (pmids : List String) :
    List Paper × List String :=
  if pmids.isEmpty then ([], [])
  else
    let idParam := String.intercalate "," pmids
    match respond idParam with
    | none => ([], [idParam])
    | some root => ((findAllDesc "PubmedArticle" root).map parse_paper_data, [idParam])

/-- Affiliation strings of a gathered list that the classifier accepts. -/
def qualAffs (affs : List String) : List String :=
  affs.flatMap (fun a => if is_non_academic a then [a] else [])

/-- Expected author-name sequence: one copy of the display name per
qualifying gathered affiliation, authors in document order. -/
def authorNames (authors : List Xml) : List String :=
  authors.flatMap (fun a =>
    if extract_author_name a = "" then []
    else List.replicate (qualAffs (authorAffiliations a)).length (extract_author_name a))

/-- All qualifying gathered affiliations of named authors, in order. -/
def allQualAffs (authors : List Xml) : List String :=
  authors.flatMap (fun a =>
    if extract_author_name a = "" then [] else qualAffs (authorAffiliations a))

/-- All gathered affiliations of named authors, in order. -/
def allAffs (authors : List Xml) : List String :=
  authors.flatMap (fun a =>
    if extract_author_name a = "" then [] else authorAffiliations a)

end Root

/-- Author entry of the spec's end-to-end scenario. -/
def scenarioAuthor : Xml :=
  .elem "Author" none
    [.elem "LastName" (some "Smith") [],
     .elem "ForeName" (some "Jane") [],
     .elem "AffiliationInfo" none [.elem "Affiliation" (some "Acme Pharma Inc.") []]]

/-- Author list of the spec's end-to-end scenario. -/
def scenarioAuthorList : Xml := .elem "AuthorList" none [scenarioAuthor]

/-- Article node of the spec's end-to-end scenario. -/
def scenarioArticle : Xml := .elem "Article" none [scenarioAuthorList]

/-- Author entry carrying only a fore name. -/
def foreOnlyAuthor : Xml := .elem "Author" none [.elem "ForeName" (some "Jane") []]

/-- Author entry whose only affiliation text is whitespace. -/
def wsAffAuthor : Xml :=
  .elem "Author" none
    [.elem "LastName" (some "Smith") [],
     .elem "AffiliationInfo" none [.elem "Affiliation" (some "   ") []]]

/-- Article whose only author has a whitespace-only affiliation text. -/
def wsAffArticle : Xml :=
  .elem "Article" none [.elem "AuthorList" none [wsAffAuthor]]

/-- Author list with one author whose two affiliations carry distinct e-mails. -/
def twoEmailAuthorList : Xml :=
  .elem "AuthorList" none
    [.elem "Author" none
      [.elem "LastName" (some "Smith") [],
       .elem "AffiliationInfo" none
         [.elem "Affiliation" (some "Acme, alice@acme.com") []],
       .elem "AffiliationInfo" none
         [.elem "Affiliation" (some "Beta Industries, bob@corp.io") []]]]

/-- Article with one author whose two affiliations carry distinct e-mails. -/
def twoEmailArticle : Xml := .elem "Article" none [twoEmailAuthorList]

/-- PubDate element with all of year, month and day. -/
def fullDateElem : Xml :=
  .elem "PubDate" none
    [.elem "Year" (some "2023") [],
     .elem "Month" (some "Feb") [],
     .elem "Day" (some "15") []]

/-- Article of the repository's own date test (`test_pubmed.py`). -/
def fullDateArticle : Xml :=
  .elem "PubmedArticle" none
    [.elem "MedlineCitation" none [.elem "Article" none [fullDateElem]]]

/-- Article whose PubDate has month and day but no year. -/
def monthDayArticle : Xml :=
  .elem "Article" none
    [.elem "PubDate" none [.elem "Month" (some "Feb") [], .elem "Day" (some "15") []]]

/-- Article whose PubDate has year and month but no day. -/
def yearMonthArticle : Xml :=
  .elem "Article" none
    [.elem "PubDate" none [.elem "Year" (some "2023") [], .elem "Month" (some "Feb") []]]

/-- Article whose ArticleTitle element is present but carries no text. -/
def emptyTitleArticle : Xml := .elem "PubmedArticle" none [.elem "ArticleTitle" none []]

/-- Article node with no substructure at all. -/
def bareArticle : Xml := .elem "PubmedArticle" none []

/-- Article node with no `Article` substructure. -/
def noArticleNode : Xml := .elem "PubmedArticle" none [.elem "PMID" (some "123") []]

/-- Article node with an (empty) `Article` substructure. -/
def withArticleNode : Xml := .elem "PubmedArticle" none [.elem "Article" none []]

/-- The stripped `LastName` text of an author entry. -/
def lastNameText (a : Xml) : String := strTrim (findtextChild "LastName" "" a)

/-- The stripped `ForeName` text of an author entry. -/
def foreNameText (a : Xml) : String := strTrim (findtextChild "ForeName" "" a)

/-- The stripped `CollectiveName` text of an author entry. -/
def collectiveNameText (a : Xml) : String := strTrim (findtextChild "CollectiveName" "" a)

/-! ### Helper lemmas -/

theorem isPrefixOf_iff_exists (n h : List Char) :
    n.isPrefixOf h = true ↔ ∃ t, h = n ++ t := by
  induction n generalizing h with
  | nil => simp [List.isPrefixOf]
  | cons a as ih =>
    cases h with
    | nil => simp [List.isPrefixOf]
    | cons b bs =>
      simp only [List.isPrefixOf, Bool.and_eq_true, ih, beq_iff_eq, List.cons_append,
        List.cons.injEq]
      constructor
      · rintro ⟨rfl, t, rfl⟩; exact ⟨t, rfl, rfl⟩
      · rintro ⟨t, rfl, rfl⟩; exact ⟨rfl, t, rfl⟩

/-- Correctness of the substring test: `subListOf n h` holds exactly when `n`
occurs contiguously inside `h`. -/
theorem subListOf_iff_exists (n h : List Char) :
    subListOf n h = true ↔ ∃ pre post, h = pre ++ n ++ post := by
  induction h with
  | nil =>
    constructor
    · intro hn
      have hn' : n = [] := by simpa [subListOf, List.isEmpty_iff] using hn
      exact ⟨[], [], by simp [hn']⟩
    · rintro ⟨pre, post, hh⟩
      have h1 := List.append_eq_nil.mp hh.symm
      have h2 := List.append_eq_nil.mp h1.1
      simp [subListOf, h2.2]
  | cons c cs ih =>
    simp only [subListOf, Bool.or_eq_true, ih, isPrefixOf_iff_exists]
    constructor
    · rintro (⟨t, ht⟩ | ⟨pre, post, rfl⟩)
      · exact ⟨[], t, by simpa using ht⟩
      · exact ⟨c :: pre, post, rfl⟩
    · rintro ⟨pre, post, hh⟩
      cases pre with
      | nil => exact Or.inl ⟨post, by simpa using hh⟩
      | cons p ps =>
        simp only [List.cons_append, List.cons.injEq] at hh
        exact Or.inr ⟨ps, post, hh.2⟩

theorem orNA_ne_nil (xs : List String) : orNA xs ≠ [] := by
  cases xs <;> simp [orNA]

theorem orNA_of_ne_nil {xs : List String} (h : xs ≠ []) : orNA xs = xs := by
  cases xs with
  | nil => exact absurd rfl h
  | cons a t => rfl

theorem mem_insertDedup {xs : List String} {a x : String} :
    x ∈ insertDedup xs a ↔ x ∈ xs ∨ x = a := by
  by_cases h : a ∈ xs
  · simp only [insertDedup, if_pos h]
    exact ⟨Or.inl, fun hx => hx.elim id (fun e => e ▸ h)⟩
  · simp [insertDedup, if_neg h]

theorem nodup_insertDedup {xs : List String} (h : xs.Nodup) (a : String) :
    (insertDedup xs a).Nodup := by
  by_cases ha : a ∈ xs
  · simpa [insertDedup, ha] using h
  · rw [insertDedup, if_neg ha]
    refine List.Nodup.append h (List.nodup_singleton a) ?_
    intro x hx hx'
    rw [List.mem_singleton] at hx'
    exact ha (hx' ▸ hx)

theorem foldl_insertDedup_mem (l xs : List String) (x : String) :
    x ∈ l.foldl insertDedup xs ↔ x ∈ xs ∨ x ∈ l := by
  induction l generalizing xs with
  | nil => simp
  | cons a t ih =>
    rw [List.foldl_cons, ih]
    simp only [mem_insertDedup, List.mem_cons]
    tauto

theorem foldl_insertDedup_nodup (l : List String) {xs : List String} (h : xs.Nodup) :
    (l.foldl insertDedup xs).Nodup := by
  induction l generalizing xs with
  | nil => simpa
  | cons a t ih => exact ih (nodup_insertDedup h a)

theorem foldl_insertDedup_eq_nil_iff (l : List String) :
    l.foldl insertDedup [] = [] ↔ l = [] := by
  constructor
  · intro h
    rw [List.eq_nil_iff_forall_not_mem]
    intro x hx
    have hm := (foldl_insertDedup_mem l [] x).mpr (Or.inr hx)
    rw [h] at hm
    exact absurd hm (List.not_mem_nil x)
  · rintro rfl; rfl

theorem mem_orNA_foldl_insertDedup (l : List String) (x : String) :
    x ∈ orNA (l.foldl insertDedup []) ↔ x ∈ l ∨ (l = [] ∧ x = "N/A") := by
  by_cases hl : l = []
  · subst hl; simp [orNA]
  · have hne : l.foldl insertDedup [] ≠ [] := by
      intro h; exact hl ((foldl_insertDedup_eq_nil_iff l).mp h)
    rw [orNA_of_ne_nil hne, foldl_insertDedup_mem]
    simp [hl]

theorem orNA_foldl_insertDedup_nodup (l : List String) :
    (orNA (l.foldl insertDedup [])).Nodup := by
  by_cases h : l.foldl insertDedup [] = []
  · rw [h]
    simp [orNA]
  · rw [orNA_of_ne_nil h]
    exact foldl_insertDedup_nodup l List.nodup_nil

/-! Characterization of the package variant's accumulation loops. -/

theorem pkg_affFold (name : String) (ais : List Xml) (st : Pkg.AuthState) :
    ais.foldl (Pkg.affStep name) st =
      (st.1 ++ List.replicate (Pkg.qualAffs ais).length name,
       (Pkg.qualAffs ais).foldl insertDedup st.2.1,
       st.2.2 ++ Pkg.affEmails ais) := by
  induction ais generalizing st with
  | nil => simp [Pkg.qualAffs, Pkg.affEmails]
  | cons ai t ih =>
    rw [List.foldl_cons, ih]
    by_cases h0 : affText ai = ""
    · simp [Pkg.affStep, Pkg.qualAffs, Pkg.affEmails, h0]
    · by_cases h1 : Pkg.is_non_academic (affText ai) = true
      · simp [Pkg.affStep, Pkg.qualAffs, Pkg.affEmails, h0, h1, List.replicate_succ,
          List.append_assoc]
      · simp [Pkg.affStep, Pkg.qualAffs, Pkg.affEmails, h0, h1, List.append_assoc]

theorem pkg_authorFold (authors : List Xml) (st : Pkg.AuthState) :
    authors.foldl Pkg.authorStep st =
      (st.1 ++ Pkg.authorNames authors,
       (Pkg.allQualAffs authors).foldl insertDedup st.2.1,
       st.2.2 ++ Pkg.allEmails authors) := by
  induction authors generalizing st with
  | nil => simp [Pkg.authorNames, Pkg.allQualAffs, Pkg.allEmails]
  | cons a t ih =>
    rw [List.foldl_cons]
    cases hn : Pkg.extract_author_name a with
    | none =>
      rw [show Pkg.authorStep st a = st from by simp [Pkg.authorStep, hn], ih]
      simp [Pkg.authorNames, Pkg.allQualAffs, Pkg.allEmails, hn]
    | some name =>
      rw [show Pkg.authorStep st a =
          (findAllDesc "AffiliationInfo" a).foldl (Pkg.affStep name) st from by
        simp [Pkg.authorStep, hn]]
      rw [pkg_affFold, ih]
      simp [Pkg.authorNames, Pkg.allQualAffs, Pkg.allEmails, hn, List.append_assoc,
        List.foldl_append]

/-- Closed form of the package variant's `process_author_data` when the
author list is present. -/
theorem pkg_process_eq (x al : Xml) (h : findDesc "AuthorList" x = some al) :
    Pkg.process_author_data x =
      (orNA (Pkg.authorNames (findAllChildren "Author" al)),
       orNA ((Pkg.allQualAffs (findAllChildren "Author" al)).foldl insertDedup []),
       if Pkg.allEmails (findAllChildren "Author" al) = [] then "N/A"
       else String.intercalate "; " (Pkg.allEmails (findAllChildren "Author" al))) := by
  unfold Pkg.process_author_data
  split
  · next heq => rw [h] at heq; exact absurd heq (by simp)
  · next al2 heq =>
    rw [h] at heq
    injection heq with e
    subst e
    rw [pkg_authorFold]
    simp

/-! Characterization of the root variant's accumulation loops. -/

theorem root_affFold (name : String) (affs : List String) (st : Root.AuthState) :
    affs.foldl (Root.affStep name) st =
      (st.1 ++ List.replicate (Root.qualAffs affs).length name,
       (Root.qualAffs affs).foldl insertDedup st.2.1,
       affs.foldl Root.emailUpd st.2.2) := by
  induction affs generalizing st with
  | nil => simp [Root.qualAffs]
  | cons a t ih =>
    rw [List.foldl_cons, ih]
    by_cases h1 : Root.is_non_academic a = true
    · simp [Root.affStep, Root.qualAffs, h1, List.replicate_succ, List.append_assoc]
    · simp [Root.affStep, Root.qualAffs, h1]

theorem root_authorFold (authors : List Xml) (st : Root.AuthState) :
    authors.foldl Root.authorStep st =
      (st.1 ++ Root.authorNames authors,
       (Root.allQualAffs authors).foldl insertDedup st.2.1,
       (Root.allAffs authors).foldl Root.emailUpd st.2.2) := by
  induction authors generalizing st with
  | nil => simp [Root.authorNames, Root.allQualAffs, Root.allAffs]
  | cons a t ih =>
    rw [List.foldl_cons]
    by_cases hn : Root.extract_author_name a = ""
    · rw [show Root.authorStep st a = st from by simp [Root.authorStep, hn], ih]
      simp [Root.authorNames, Root.allQualAffs, Root.allAffs, hn]
    · rw [show Root.authorStep st a =
          (Root.authorAffiliations a).foldl (Root.affStep (Root.extract_author_name a)) st
          from by simp [Root.authorStep, hn]]
      rw [root_affFold, ih]
      simp [Root.authorNames, Root.allQualAffs, Root.allAffs, hn, List.append_assoc,
        List.foldl_append]

/-- Closed form of the root variant's `process_author_data` when the author
list is present. -/
theorem root_process_eq (x al : Xml) (h : findDesc "AuthorList" x = some al) :
    Root.process_author_data x =
      (orNA (Root.authorNames (findAllChildren "Author" al)),
       orNA ((Root.allQualAffs (findAllChildren "Author" al)).foldl insertDedup []),
       (Root.allAffs (findAllChildren "Author" al)).foldl Root.emailUpd "N/A") := by
  unfold Root.process_author_data
  split
  · next heq => rw [h] at heq; exact absurd heq (by simp)
  · next al2 heq =>
    rw [h] at heq
    injection heq with e
    subst e
    rw [root_authorFold]
    simp

/-! The first-match-only behaviour of the root variant's e-mail field. -/

theorem matchSimple_mem (cs : List Char) (n : Nat) (h : matchSimpleEmailAt cs = some n) :
    '@' ∈ cs.take n := by
  simp only [matchSimpleEmailAt] at h
  by_cases ha : runLen wordChar cs = 0
  · rw [if_pos ha] at h
    exact absurd h (by simp)
  · rw [if_neg ha] at h
    cases hd : cs.drop (runLen wordChar cs) with
    | nil => rw [hd] at h; simp [afterAt] at h
    | cons c rest =>
      rw [hd] at h
      by_cases hc : c = '@'
      · subst hc
        by_cases hb : runLen wordChar rest = 0
        · simp [afterAt, hb] at h
        · replace h : runLen wordChar cs + 1 + runLen wordChar rest = n := by
            simpa [afterAt, hb] using h
          have hlt : runLen wordChar cs < cs.length := by
            have hlen := congrArg List.length hd
            rw [List.length_drop] at hlen
            simp only [List.length_cons] at hlen
            omega
          have hsplit : cs = cs.take (runLen wordChar cs) ++ '@' :: rest := by
            conv_lhs => rw [← List.take_append_drop (runLen wordChar cs) cs]
            rw [hd]
          have htl : (cs.take (runLen wordChar cs)).length = runLen wordChar cs := by
            rw [List.length_take]
            omega
          rw [hsplit, List.take_append_eq_append_take, htl]
          refine List.mem_append_right _ ?_
          cases hnn : n - runLen wordChar cs with
          | zero => exact absurd hnn (by omega)
          | succ m => simp
      · simp [afterAt, hc] at h

theorem searchAux_mem (cs l : List Char) (h : searchEmailAux cs = some l) : '@' ∈ l := by
  induction cs with
  | nil => exact absurd h (by simp [searchEmailAux])
  | cons c t ih =>
    unfold searchEmailAux at h
    cases hm : matchSimpleEmailAt (c :: t) with
    | some n =>
      rw [hm] at h
      simp only [Option.some.injEq] at h
      exact h ▸ matchSimple_mem (c :: t) n hm
    | none =>
      rw [hm] at h
      exact ih h

/-- A match of the root variant's e-mail pattern always contains `@`, so it
can never equal the sentinel string. -/
theorem emailSearch_ne_NA (s r : String) (h : emailSearch s = some r) : r ≠ "N/A" := by
  unfold emailSearch at h
  cases hs : searchEmailAux s.data with
  | none => rw [hs] at h; exact absurd h (by simp)
  | some l =>
    rw [hs] at h
    simp only [Option.map_some', Option.some.injEq] at h
    intro he
    have hl : '@' ∈ l := searchAux_mem s.data l hs
    have hdata : l = "N/A".data := congrArg String.data (h ▸ he)
    rw [hdata] at hl
    exact absurd hl (by decide)

theorem emailUpd_of_ne (e a : String) (h : e ≠ "N/A") : Root.emailUpd e a = e := by
  unfold Root.emailUpd
  cases emailSearch a <;> simp [h]

theorem foldl_emailUpd_of_ne (affs : List String) (e : String) (h : e ≠ "N/A") :
    affs.foldl Root.emailUpd e = e := by
  induction affs with
  | nil => rfl
  | cons a t ih => rw [List.foldl_cons, emailUpd_of_ne e a h]; exact ih

/-- Starting from the sentinel, the e-mail fold keeps exactly the first match
found across the affiliation sequence. -/
theorem foldl_emailUpd_NA (affs : List String) :
    affs.foldl Root.emailUpd "N/A" = (affs.filterMap emailSearch).headD "N/A" := by
  induction affs with
  | nil => rfl
  | cons a t ih =>
    rw [List.foldl_cons]
    cases hs : emailSearch a with
    | none =>
      rw [show Root.emailUpd "N/A" a = "N/A" from by simp [Root.emailUpd, hs]]
      rw [ih]
      simp [List.filterMap_cons, hs]
    | some em =>
      rw [show Root.emailUpd "N/A" a = em from by simp [Root.emailUpd, hs]]
      rw [foldl_emailUpd_of_ne t em (emailSearch_ne_NA a em hs)]
      simp [List.filterMap_cons, hs]


theorem pkg_process_components_ne_nil (x : Xml) :
    (Pkg.process_author_data x).1 ≠ [] ∧ (Pkg.process_author_data x).2.1 ≠ [] := by
  unfold Pkg.process_author_data
  split
  · exact ⟨by simp, by simp⟩
  · exact ⟨orNA_ne_nil _, orNA_ne_nil _⟩

theorem root_process_components_ne_nil (x : Xml) :
    (Root.process_author_data x).1 ≠ [] ∧ (Root.process_author_data x).2.1 ≠ [] := by
  unfold Root.process_author_data
  split
  · exact ⟨by simp, by simp⟩
  · exact ⟨orNA_ne_nil _, orNA_ne_nil _⟩

/-! ### Claim C1 -/

/-- Claim C1 (corrected), counterexample: the root variant's `is_non_academic`
returns true on a string containing the academic keyword "university"
(case-insensitively, and "university" is an academic keyword of both
variants), because a corporate keyword is also present — so the claim's
"false regardless of any corporate markers also present" fails on
`src/fetch_papers.py`. -/
theorem c1_root_classifier_accepts_academic_string :
    Root.is_non_academic "University Pharma Inc" = true
    ∧ (∃ pre post,
        (strLower "University Pharma Inc").data = pre ++ "university".data ++ post)
    ∧ "university" ∈ Pkg.academic_keywords
    ∧ "university" ∈ Root.academic_keywords := by
  refine ⟨by decide, ⟨[], " pharma inc".data, by decide⟩, by decide, by decide⟩

/-- Claim C1 (corrected): the package variant's classifier satisfies the
claim — `is_non_academic` returns true iff the lowercased affiliation contains
none of the fixed academic keywords as a contiguous substring.  The root
variant's classifier follows a different policy (presence of corporate
keywords, or "research" with no academic keyword) and violates the claim. -/
theorem c1_pkg_classifier_iff_no_academic_keyword (s : String) :
    Pkg.is_non_academic s = true ↔
      ∀ k ∈ Pkg.academic_keywords,
        ¬ ∃ pre post, (strLower s).data = pre ++ k.data ++ post := by
  unfold Pkg.is_non_academic
  rw [Bool.not_eq_true']
  constructor
  · intro hf k hk hex
    have hc : containsStr (strLower s) k = true :=
      (subListOf_iff_exists k.data (strLower s).data).mpr hex
    have hany := List.any_eq_true.mpr ⟨k, hk, hc⟩
    rw [hf] at hany
    exact Bool.false_ne_true hany
  · intro hall
    rw [Bool.eq_false_iff]
    intro hany
    obtain ⟨k, hk, hc⟩ := List.any_eq_true.mp hany
    exact hall k hk ((subListOf_iff_exists k.data (strLower s).data).mp hc)

/-- Claim C1 witness: the corporate affiliation of the spec's scenario is
classified non-academic by the package variant. -/
theorem c1_pkg_classifier_witness : Pkg.is_non_academic "Acme Pharma Inc." = true := by
  refine (c1_pkg_classifier_iff_no_academic_keyword "Acme Pharma Inc.").mpr ?_
  intro k hk hex
  have hc : containsStr (strLower "Acme Pharma Inc.") k = true :=
    (subListOf_iff_exists k.data (strLower "Acme Pharma Inc.").data).mpr hex
  simp only [Pkg.academic_keywords, List.mem_cons, List.not_mem_nil, or_false] at hk
  rcases hk with rfl | rfl | rfl | rfl | rfl | rfl | rfl | rfl | rfl | rfl <;>
    exact absurd hc (by decide)

/-! ### Claim C2 -/

/-- Claim C2 (corrected), counterexample: the package variant composes
"N/A Feb 15" from a month and day with no year, and composes only the bare
year from a year and month with no day — both forbidden by the claim. -/
theorem c2_pkg_date_composed_without_year :
    Pkg.extract_publication_date monthDayArticle = "N/A Feb 15"
    ∧ Pkg.extract_publication_date yearMonthArticle = "2023" := by
  exact ⟨by decide, by decide⟩

/-- Claim C2 (corrected): the root variant composes the publication date
exactly as claimed — "YEAR MONTH DAY" when all three subfields are read,
"YEAR MONTH" when the day is missing, the bare year when only it is present,
and "N/A" when the year is missing or no date substructure exists.  The
package variant instead composes "YEAR MONTH DAY" whenever month and day are
both present (a missing year is rendered "N/A"), and otherwise returns the
bare year value, so year+month without day degrades to the year alone. -/
theorem c2_publication_date_composition :
    (∀ a p, Root.selectedPubDate a = some p →
      (findtextChild "Year" "N/A" p ≠ "N/A" → findtextChild "Month" "N/A" p ≠ "N/A" →
        findtextChild "Day" "N/A" p ≠ "N/A" →
        Root.extract_publication_date a =
          findtextChild "Year" "N/A" p ++ " " ++ findtextChild "Month" "N/A" p ++ " " ++
            findtextChild "Day" "N/A" p)
      ∧ (findtextChild "Year" "N/A" p ≠ "N/A" → findtextChild "Month" "N/A" p ≠ "N/A" →
        findtextChild "Day" "N/A" p = "N/A" →
        Root.extract_publication_date a =
          findtextChild "Year" "N/A" p ++ " " ++ findtextChild "Month" "N/A" p)
      ∧ (findtextChild "Year" "N/A" p ≠ "N/A" → findtextChild "Month" "N/A" p = "N/A" →
        Root.extract_publication_date a = findtextChild "Year" "N/A" p)
      ∧ (findtextChild "Year" "N/A" p = "N/A" →
        Root.extract_publication_date a = "N/A"))
    ∧ (∀ a, Root.selectedPubDate a = none → Root.extract_publication_date a = "N/A")
    ∧ (∀ a p, findDesc "PubDate" a = some p →
      (findtextChild "Month" "N/A" p ≠ "N/A" → findtextChild "Day" "N/A" p ≠ "N/A" →
        Pkg.extract_publication_date a =
          findtextChild "Year" "N/A" p ++ " " ++ findtextChild "Month" "N/A" p ++ " " ++
            findtextChild "Day" "N/A" p)
      ∧ (findtextChild "Month" "N/A" p = "N/A" →
        Pkg.extract_publication_date a = findtextChild "Year" "N/A" p)
      ∧ (findtextChild "Day" "N/A" p = "N/A" →
        Pkg.extract_publication_date a = findtextChild "Year" "N/A" p))
    ∧ (∀ a, findDesc "PubDate" a = none → Pkg.extract_publication_date a = "N/A") := by
  refine ⟨?_, ?_, ?_, ?_⟩
  · intro a p h
    refine ⟨?_, ?_, ?_, ?_⟩
    · intro h1 h2 h3
      simp [Root.extract_publication_date, h, h1, h2, h3]
    · intro h1 h2 h3
      simp [Root.extract_publication_date, h, h1, h2, h3]
    · intro h1 h2
      simp [Root.extract_publication_date, h, h1, h2]
    · intro h1
      simp [Root.extract_publication_date, h, h1]
  · intro a h
    simp [Root.extract_publication_date, h]
  · intro a p h
    refine ⟨?_, ?_, ?_⟩
    · intro h1 h2
      simp [Pkg.extract_publication_date, h, h1, h2]
    · intro h1
      simp [Pkg.extract_publication_date, h, h1]
    · intro h1
      simp [Pkg.extract_publication_date, h, h1]
  · intro a h
    simp [Pkg.extract_publication_date, h]

/-- Claim C2 witness: on the repository's own test input (PubDate 2023 Feb
15), both variants compose "2023 Feb 15". -/
theorem c2_publication_date_witness :
    Root.extract_publication_date fullDateArticle = "2023 Feb 15"
    ∧ Pkg.extract_publication_date fullDateArticle = "2023 Feb 15" := by
  constructor
  · rw [(c2_publication_date_composition.1 fullDateArticle fullDateElem rfl).1
      (by decide) (by decide) (by decide)]
    decide
  · rw [(c2_publication_date_composition.2.2.1 fullDateArticle fullDateElem rfl).1
      (by decide) (by decide)]
    decide

/-! ### Claim C3 -/

/-- Claim C3 (corrected), counterexample: on an article node with no
`Article` substructure, the root variant's extractor returns
`create_empty_paper_dict`, whose two list-valued fields are empty lists, not
the sentinel `["N/A"]`. -/
theorem c3_root_empty_record_has_empty_lists :
    (Root.parse_paper_data noArticleNode).nonAcademicAuthors = []
    ∧ (Root.parse_paper_data noArticleNode).companyAffiliations = [] :=
  ⟨rfl, rfl⟩

/-- Claim C3 (corrected): every Record built by the package variant's
extractor has non-empty list fields, and so does the root variant's whenever
the `Article` substructure is present; when it is absent the root variant
returns `create_empty_paper_dict`, whose list fields are empty. -/
theorem c3_list_fields_nonempty :
    (∀ article, (Pkg.parse_paper_data article).nonAcademicAuthors ≠ []
      ∧ (Pkg.parse_paper_data article).companyAffiliations ≠ [])
    ∧ (∀ article ad, findDesc "Article" article = some ad →
      (Root.parse_paper_data article).nonAcademicAuthors ≠ []
      ∧ (Root.parse_paper_data article).companyAffiliations ≠ []) := by
  constructor
  · intro article
    exact ⟨(pkg_process_components_ne_nil article).1,
      (pkg_process_components_ne_nil article).2⟩
  · intro article ad h
    unfold Root.parse_paper_data
    split
    · next heq => rw [h] at heq; exact absurd heq (by simp)
    · next ad2 heq =>
      rw [h] at heq
      injection heq with e
      subst e
      exact ⟨(root_process_components_ne_nil ad).1,
        (root_process_components_ne_nil ad).2⟩

/-- Claim C3 witness: concrete instances of both parts. -/
theorem c3_list_fields_witness :
    (Pkg.parse_paper_data bareArticle).nonAcademicAuthors ≠ []
    ∧ (Root.parse_paper_data withArticleNode).nonAcademicAuthors ≠ [] :=
  ⟨(c3_list_fields_nonempty.1 bareArticle).1,
   (c3_list_fields_nonempty.2 withArticleNode (Xml.elem "Article" none []) rfl).1⟩

/-! ### Claim C4 -/

/-- Claim C4 (corrected), counterexample: with two affiliations carrying the
e-mails alice@acme.com and bob@corp.io, the root variant's field holds only
the first match, although the second affiliation also matches — not the
"; "-join of all matches the claim requires. -/
theorem c4_root_email_keeps_first_match_only :
    (Root.process_author_data twoEmailArticle).2.2 = "alice@acme.com"
    ∧ emailSearch "Beta Industries, bob@corp.io" = some "bob@corp.io"
    ∧ "alice@acme.com" ≠ "alice@acme.com; bob@corp.io" := by
  refine ⟨by decide, by decide, by decide⟩

/-- Claim C4 (corrected): in the package variant the e-mail field is all
pattern matches across the named authors' nonempty affiliation texts, in
encounter order, joined with "; ", and "N/A" exactly when that collection is
empty; affiliations of skipped (nameless) authors are not scanned.  In the
root variant the field is only the first match over the gathered affiliation
sequence, with "N/A" when there is none. -/
theorem c4_email_field_characterization :
    (∀ x al, findDesc "AuthorList" x = some al →
      (Pkg.process_author_data x).2.2 =
        if Pkg.allEmails (findAllChildren "Author" al) = [] then "N/A"
        else String.intercalate "; " (Pkg.allEmails (findAllChildren "Author" al)))
    ∧ (∀ x al, findDesc "AuthorList" x = some al →
      (Root.process_author_data x).2.2 =
        ((Root.allAffs (findAllChildren "Author" al)).filterMap emailSearch).headD
          "N/A") := by
  constructor
  · intro x al h
    rw [pkg_process_eq x al h]
  · intro x al h
    rw [root_process_eq x al h]
    exact foldl_emailUpd_NA _

/-- Claim C4 witness: both parts applied to the two-e-mail article. -/
theorem c4_email_field_witness :
    (Pkg.process_author_data twoEmailArticle).2.2 =
      (if Pkg.allEmails (findAllChildren "Author" twoEmailAuthorList) = [] then "N/A"
       else String.intercalate "; "
        (Pkg.allEmails (findAllChildren "Author" twoEmailAuthorList)))
    ∧ (Root.process_author_data twoEmailArticle).2.2 =
      ((Root.allAffs (findAllChildren "Author" twoEmailAuthorList)).filterMap
        emailSearch).headD "N/A" :=
  ⟨c4_email_field_characterization.1 twoEmailArticle twoEmailAuthorList rfl,
   c4_email_field_characterization.2 twoEmailArticle twoEmailAuthorList rfl⟩

/-! ### Claim C5 -/

/-- Claim C5 (corrected), counterexample: a fore-name-only entry is skipped by
the package variant instead of contributing the single present name, and the
root variant formats the scenario author as "Smith, Jane", not "Jane Smith". -/
theorem c5_name_formats_differ_from_claim :
    Pkg.extract_author_name foreOnlyAuthor = none
    ∧ Root.extract_author_name scenarioAuthor = "Smith, Jane"
    ∧ (Root.process_author_data scenarioArticle).1 = ["Smith, Jane"] := by
  refine ⟨by decide, by decide, by decide⟩

/-- Claim C5 (corrected): the package variant's display name is "First Last"
when both names are present, the last name alone when only it is present, and
the author is skipped whenever the last name is missing — including the
fore-name-only case the claim would keep.  The root variant formats
"Last, First" whenever a fore name is present, the last name alone otherwise,
and falls back to a collective name when both are missing.  In the spec's
scenario, "Jane Smith" appears in the package variant's sequence but the root
variant records "Smith, Jane". -/
theorem c5_author_name_rules :
    (∀ a, lastNameText a ≠ "" → foreNameText a ≠ "" →
      Pkg.extract_author_name a = some (foreNameText a ++ " " ++ lastNameText a))
    ∧ (∀ a, lastNameText a ≠ "" → foreNameText a = "" →
      Pkg.extract_author_name a = some (lastNameText a))
    ∧ (∀ a, lastNameText a = "" → Pkg.extract_author_name a = none)
    ∧ (∀ a, foreNameText a ≠ "" →
      Root.extract_author_name a = lastNameText a ++ ", " ++ foreNameText a)
    ∧ (∀ a, lastNameText a ≠ "" → foreNameText a = "" →
      Root.extract_author_name a = lastNameText a)
    ∧ (∀ a, lastNameText a = "" → foreNameText a = "" → collectiveNameText a ≠ "" →
      Root.extract_author_name a = collectiveNameText a)
    ∧ (∀ a, lastNameText a = "" → foreNameText a = "" → collectiveNameText a = "" →
      Root.extract_author_name a = "")
    ∧ Pkg.process_author_data scenarioArticle =
        (["Jane Smith"], ["Acme Pharma Inc."], "N/A")
    ∧ Root.process_author_data scenarioArticle =
        (["Smith, Jane"], ["Acme Pharma Inc."], "N/A") := by
  refine ⟨?_, ?_, ?_, ?_, ?_, ?_, ?_, by decide, by decide⟩
  · intro a h1 h2
    simp only [lastNameText, foreNameText] at h1 h2 ⊢
    simp [Pkg.extract_author_name, h1, h2]
  · intro a h1 h2
    simp only [lastNameText, foreNameText] at h1 h2 ⊢
    simp [Pkg.extract_author_name, h1, h2]
  · intro a h1
    simp only [lastNameText] at h1 ⊢
    simp [Pkg.extract_author_name, h1]
  · intro a h1
    simp only [lastNameText, foreNameText] at h1 ⊢
    simp [Root.extract_author_name, h1]
  · intro a h1 h2
    simp only [lastNameText, foreNameText] at h1 h2 ⊢
    simp [Root.extract_author_name, h1, h2]
  · intro a h1 h2 h3
    simp only [lastNameText, foreNameText, collectiveNameText] at h1 h2 h3 ⊢
    simp [Root.extract_author_name, h1, h2, h3]
  · intro a h1 h2 h3
    simp only [lastNameText, foreNameText, collectiveNameText] at h1 h2 h3 ⊢
    simp [Root.extract_author_name, h1, h2, h3]

/-- Claim C5 witness: the scenario author's package-variant display name. -/
theorem c5_author_name_witness :
    Pkg.extract_author_name scenarioAuthor = some "Jane Smith" := by
  rw [c5_author_name_rules.1 scenarioAuthor (by decide) (by decide)]
  decide

/-! ### Claim C6 -/

/-- Claim C6 (corrected), counterexample: the root variant classifies the
empty affiliation string as academic (`false`), since it contains no
corporate keyword and not the substring "research". -/
theorem c6_root_empty_affiliation_is_academic :
    Root.is_non_academic "" = false := by decide

/-- Claim C6 (corrected): the package variant's classifier does return true
on the empty string, but the root variant's returns false on it.  Both are
total functions of the affiliation string, so neither has error conditions. -/
theorem c6_empty_affiliation_verdicts :
    Pkg.is_non_academic "" = true ∧ Root.is_non_academic "" = false := by decide

/-! ### Claim C7 -/

/-- Claim C7 (confirmed): whenever the author-list substructure is absent,
both variants' resolvers return exactly (["N/A"], ["N/A"], "N/A"); the result
is determined by that absence alone, whatever else the node contains. -/
theorem c7_missing_author_list_sentinel (x : Xml)
    (h : findDesc "AuthorList" x = none) :
    Pkg.process_author_data x = (["N/A"], ["N/A"], "N/A")
    ∧ Root.process_author_data x = (["N/A"], ["N/A"], "N/A") := by
  constructor
  · unfold Pkg.process_author_data
    rw [h]
  · unfold Root.process_author_data
    rw [h]

/-- Claim C7 witness: the sentinel triple on a childless article node. -/
theorem c7_missing_author_list_witness :
    Pkg.process_author_data bareArticle = (["N/A"], ["N/A"], "N/A")
    ∧ Root.process_author_data bareArticle = (["N/A"], ["N/A"], "N/A") :=
  c7_missing_author_list_sentinel bareArticle rfl

/-! ### Claim C8 -/

/-- Claim C8 (confirmed): given an empty identifier sequence, both variants'
fetch clients return an empty result and issue no fetch request, whatever the
remote service would answer. -/
theorem c8_empty_pmids_no_request (respond : String → Option Xml) :
    Pkg.get_paper_details respond [] = ([], [])
    ∧ Root.get_paper_details respond [] = ([], []) :=
  ⟨rfl, rfl⟩

/-- Claim C8 witness: a concrete environment. -/
theorem c8_empty_pmids_witness :
    Pkg.get_paper_details (fun _ => none) [] = ([], [])
    ∧ Root.get_paper_details (fun _ => none) [] = ([], []) :=
  c8_empty_pmids_no_request (fun _ => none)

/-! ### Claim C9 -/

/-- Claim C9 (corrected), counterexample: an author with a derivable display
name and one attached affiliation string "   " — a string the package
classifier classifies non-academic — occurs zero times in the output, because
the text strips to empty and is skipped before classification. -/
theorem c9_pkg_whitespace_affiliation_skipped :
    Pkg.extract_author_name wsAffAuthor = some "Smith"
    ∧ Pkg.is_non_academic "   " = true
    ∧ Pkg.process_author_data wsAffArticle = (["N/A"], ["N/A"], "N/A") := by
  refine ⟨by decide, by decide, by decide⟩

/-- Claim C9 (corrected): accumulation is per-affiliation in both variants.
In the package variant the non-academic author sequence is, before the
sentinel substitution, exactly one copy of each named author's display name
per nonempty-after-stripping affiliation text classified non-academic,
duplicates retained and authors in document order.  In the root variant it is
one copy per gathered affiliation (the nonempty `AffiliationInfo` texts, else
the legacy direct `Affiliation` child) classified non-academic, duplicates
retained.  In both, the company-affiliation field is duplicate-free and holds
exactly the qualifying affiliation texts (the sentinel when there are none). -/
theorem c9_per_affiliation_accumulation (x al : Xml)
    (h : findDesc "AuthorList" x = some al) :
    ((Pkg.process_author_data x).1 =
        orNA (Pkg.authorNames (findAllChildren "Author" al))
      ∧ (Pkg.process_author_data x).2.1.Nodup
      ∧ (∀ s, s ∈ (Pkg.process_author_data x).2.1 ↔
          (s ∈ Pkg.allQualAffs (findAllChildren "Author" al)
            ∨ (Pkg.allQualAffs (findAllChildren "Author" al) = [] ∧ s = "N/A"))))
    ∧ ((Root.process_author_data x).1 =
        orNA (Root.authorNames (findAllChildren "Author" al))
      ∧ (Root.process_author_data x).2.1.Nodup
      ∧ (∀ s, s ∈ (Root.process_author_data x).2.1 ↔
          (s ∈ Root.allQualAffs (findAllChildren "Author" al)
            ∨ (Root.allQualAffs (findAllChildren "Author" al) = [] ∧ s = "N/A")))) := by
  constructor
  · rw [pkg_process_eq x al h]
    exact ⟨rfl, orNA_foldl_insertDedup_nodup _, fun s => mem_orNA_foldl_insertDedup _ s⟩
  · rw [root_process_eq x al h]
    exact ⟨rfl, orNA_foldl_insertDedup_nodup _, fun s => mem_orNA_foldl_insertDedup _ s⟩

/-- Claim C9 witness: the characterization of both variants' author
sequences on the scenario article. -/
theorem c9_per_affiliation_witness :
    (Pkg.process_author_data scenarioArticle).1 =
      orNA (Pkg.authorNames (findAllChildren "Author" scenarioAuthorList))
    ∧ (Root.process_author_data scenarioArticle).1 =
      orNA (Root.authorNames (findAllChildren "Author" scenarioAuthorList)) :=
  ⟨(c9_per_affiliation_accumulation scenarioArticle scenarioAuthorList rfl).1.1,
   (c9_per_affiliation_accumulation scenarioArticle scenarioAuthorList rfl).2.1⟩

/-! ### Claim C10 -/

/-- Claim C10 (confirmed): the package variant's Title is the text of the
first ArticleTitle descendant whenever that element exists — which is the
null value `none` on the exhibited input whose element carries no text — and
the default "Unknown Title" arises exactly from the absence of the element. -/
theorem c10_pkg_title_null_and_default :
    (Pkg.parse_paper_data emptyTitleArticle).title = none
    ∧ (∀ a, findDesc "ArticleTitle" a = none →
        (Pkg.parse_paper_data a).title = some "Unknown Title")
    ∧ (∀ a e, findDesc "ArticleTitle" a = some e →
        (Pkg.parse_paper_data a).title = e.text) := by
  refine ⟨rfl, ?_, ?_⟩
  · intro a ha
    simp [Pkg.parse_paper_data, ha]
  · intro a e ha
    simp [Pkg.parse_paper_data, ha]

/-- Claim C10 witness: the default title on an article with no ArticleTitle. -/
theorem c10_pkg_title_witness :
    (Pkg.parse_paper_data bareArticle).title = some "Unknown Title" :=
  c10_pkg_title_null_and_default.2.1 bareArticle rfl
